import Mathlib

/-!
Verification of the orchestration logic of frida-ipa-dump (dump.py): the
download state machine (class Task and the on_download_* handlers), the
message router (IPADump.on_message), the session establishment logic
(IPADump.dump) and the plugin orchestration (IPADump.dump_with_plugins).
Python runtime errors that the code can raise are modelled explicitly as
values of PyError; the external agent and device are modelled as an
environment record, and the side effects the controller performs on them
are recorded as a trace of Call values in execution order.
-/

namespace FridaIpaDump

/-- Python exceptions the code under study can raise: KeyError (dict lookup
miss, set.pop on an empty set), the explicit RuntimeError with its message,
and AttributeError (attribute access on None). -/
inductive PyError where
  | keyError
  | runtimeError (msg : String)
  | attributeError
deriving DecidableEq, Repr

/-! ## Download manager: class Task and the on_download_* handlers

dump.py lines 52-99.  A Task opens `self.ipa_name` for writing (truncating),
appends each data payload, and closes on finish.  `IPADump.tasks` is a dict
from the stream key (the `session` field of the payload) to the Task.
A Handle records one `open(path, "wb")` call: the path, the declared size
(stored by Task.__init__ but never used), the bytes written so far, and how
many times `close()` was called on it.  Handles are kept in creation order
even after the task that owned them is dropped, so that the fate of an
overwritten file handle stays observable. -/

structure Handle where
  path : String
  declaredSize : Nat
  buf : List Nat
  closes : Nat
deriving DecidableEq, Repr

/-- State of the download manager: the output path `self.ipa_name`, the dict
`self.tasks` mapping a stream key to the index of its handle, and every
handle ever opened. -/
structure DM where
  ipaName : String
  tasks : List (String × Nat)
  handles : List Handle
deriving DecidableEq, Repr

/-- Dict lookup `self.tasks[key]`, as an option. -/
def lookupTask : List (String × Nat) → String → Option Nat
  | [], _ => none
  | (k2, v) :: rest, k => if k2 = k then some v else lookupTask rest k

/-- Dict assignment `self.tasks[key] = v`: replaces an existing binding,
otherwise appends. -/
def setTask : List (String × Nat) → String → Nat → List (String × Nat)
  | [], k, v => [(k, v)]
  | (k2, v2) :: rest, k, v =>
      if k2 = k then (k, v) :: rest else (k2, v2) :: setTask rest k v

/-- Dict deletion `del self.tasks[key]`. -/
def delTask (m : List (String × Nat)) (k : String) : List (String × Nat) :=
  m.filter (fun p => p.1 ≠ k)

/-- Protocol events the download subject dispatches on: start/data/end/error
(dump.py lines 109-114). -/
inductive DlEvent where
  | start (key : String) (size : Nat)
  | data (key : String) (payload : List Nat)
  | fin (key : String)
  | err (key : String)
deriving DecidableEq, Repr

/-- close_session (dump.py lines 97-99): `self.tasks[session].finish()` then
`del self.tasks[session]`.  A missing key raises KeyError at the lookup. -/
def DM.closeKey (s : DM) (key : String) : Except PyError DM :=
  match lookupTask s.tasks key with
  | none => .error .keyError
  | some i =>
      match s.handles[i]? with
      | none => .error .keyError
      | some h =>
          .ok { s with handles := s.handles.set i { h with closes := h.closes + 1 },
                       tasks := delTask s.tasks key }

/-- One handler invocation (dump.py lines 85-99):
start opens a fresh Task on `self.ipa_name` and stores it under the key
(replacing any existing entry without closing it); data appends the payload
to the task looked up by key (KeyError if absent); end and error both run
close_session. -/
def DM.step (s : DM) : DlEvent → Except PyError DM
  | .start key size =>
      .ok { s with tasks := setTask s.tasks key s.handles.length,
                   handles := s.handles ++ [⟨s.ipaName, size, [], 0⟩] }
  | .data key payload =>
      match lookupTask s.tasks key with
      | none => .error .keyError
      | some i =>
          match s.handles[i]? with
          | none => .error .keyError
          | some h =>
              .ok { s with handles := s.handles.set i { h with buf := h.buf ++ payload } }
  | .fin key => s.closeKey key
  | .err key => s.closeKey key

/-- Run a sequence of download events, stopping at the first raised error. -/
def DM.run (s : DM) : List DlEvent → Except PyError DM
  | [] => .ok s
  | e :: rest =>
      match s.step e with
      | .error er => .error er
      | .ok s2 => s2.run rest

/-- Download-manager state right after IPADump.run set `self.ipa_name`:
no in-flight task, no handle opened yet. -/
def DM.mk0 (name : String) : DM := ⟨name, [], []⟩

example : (DM.mk0 "a.ipa").run
    [.start "k" 5, .data "k" [1, 2], .data "k" [3], .fin "k"]
    = .ok ⟨"a.ipa", [], [⟨"a.ipa", 5, [1, 2, 3], 1⟩]⟩ := rfl

example : (DM.mk0 "a.ipa").run [.data "k" [1]] = .error .keyError := rfl

/-- Folding a run of data events for the unique in-flight task appends their
payloads to the buffer of its handle, in arrival order. -/
theorem DM.run_data_fold (name key : String) (size : Nat) (acc : List Nat)
    (ps : List (List Nat)) (rest : List DlEvent) :
    DM.run ⟨name, [(key, 0)], [⟨name, size, acc, 0⟩]⟩
      (ps.map (DlEvent.data key) ++ rest)
    = DM.run ⟨name, [(key, 0)], [⟨name, size, acc ++ ps.flatten, 0⟩]⟩ rest := by
  induction ps generalizing acc with
  | nil => simp
  | cons p ps ih =>
      have h1 : DM.step ⟨name, [(key, 0)], [⟨name, size, acc, 0⟩]⟩ (DlEvent.data key p)
          = .ok ⟨name, [(key, 0)], [⟨name, size, acc ++ p, 0⟩]⟩ := by
        simp [DM.step, lookupTask]
      simp only [List.map_cons, List.cons_append, DM.run, h1, List.append_eq]
      rw [ih]
      simp [List.append_assoc]

/-- C3: for every event sequence start(key,size), data(key,b1), ...,
data(key,bn), end(key) on one stream key, the run succeeds and ends with no
in-flight task and exactly one handle: destination path ipa_name, the
declared size recorded unchanged (never enforced against the bytes), file
contents the exact concatenation b1 ++ ... ++ bn in arrival order, and the
file closed exactly once. -/
theorem C3_download_stream_contents (name key : String) (size : Nat)
    (ps : List (List Nat)) :
    (DM.mk0 name).run
        (DlEvent.start key size :: (ps.map (DlEvent.data key) ++ [DlEvent.fin key]))
      = .ok ⟨name, [], [⟨name, size, ps.flatten, 1⟩]⟩ := by
  simp only [DM.run, DM.step, DM.mk0, setTask, List.nil_append, List.length_nil]
  rw [DM.run_data_fold]
  simp [DM.run, DM.step, DM.closeKey, lookupTask, delTask, List.set]

/-- C4: for every event sequence start(key,size), data(key,b1), ...,
data(key,bn), error(key) on one stream key, the handler still closes the
destination file exactly once regardless of how many bytes were written,
removes the task from the in-flight map, and raises no error (the truncated
file is kept silently: the run returns ok). -/
theorem C4_download_error_closes_once (name key : String) (size : Nat)
    (ps : List (List Nat)) :
    (DM.mk0 name).run
        (DlEvent.start key size :: (ps.map (DlEvent.data key) ++ [DlEvent.err key]))
      = .ok ⟨name, [], [⟨name, size, ps.flatten, 1⟩]⟩ := by
  simp only [DM.run, DM.step, DM.mk0, setTask, List.nil_append, List.length_nil]
  rw [DM.run_data_fold]
  simp [DM.run, DM.step, DM.closeKey, lookupTask, delTask, List.set]

/-- C9: every data, end or error event whose stream key has no active task
(no prior start, or the task already removed) makes the handler raise
KeyError at the dict lookup `self.tasks[session]`; no other outcome is
possible for such a key. -/
theorem C9_missing_task_raises_keyerror (s : DM) (key : String) (b : List Nat)
    (h : lookupTask s.tasks key = none) :
    s.step (.data key b) = .error .keyError ∧
    s.step (.fin key) = .error .keyError ∧
    s.step (.err key) = .error .keyError := by
  refine ⟨?_, ?_, ?_⟩ <;> simp [DM.step, DM.closeKey, h]

theorem C9_missing_task_raises_keyerror_witness :
    lookupTask (DM.mk0 "a.ipa").tasks "k" = none ∧
    ((DM.mk0 "a.ipa").step (.data "k" [1]) = .error .keyError ∧
     (DM.mk0 "a.ipa").step (.fin "k") = .error .keyError ∧
     (DM.mk0 "a.ipa").step (.err "k") = .error .keyError) :=
  ⟨rfl, C9_missing_task_raises_keyerror (DM.mk0 "a.ipa") "k" [1] rfl⟩

/-- A successful dict lookup returns a value stored in the dict. -/
theorem lookupTask_mem_snd (m : List (String × Nat)) (k : String) (i : Nat)
    (h : lookupTask m k = some i) : i ∈ m.map Prod.snd := by
  induction m with
  | nil => simp [lookupTask] at h
  | cons p rest ih =>
      obtain ⟨k2, v⟩ := p
      by_cases hk : k2 = k
      · simp [lookupTask, hk] at h
        simp [h]
      · simp [lookupTask, hk] at h
        simp [ih h]

/-- Values present after a dict assignment were present before or are the
newly assigned one. -/
theorem setTask_snd_mem (m : List (String × Nat)) (k : String) (n v : Nat)
    (h : v ∈ (setTask m k n).map Prod.snd) : v ∈ m.map Prod.snd ∨ v = n := by
  induction m with
  | nil =>
      simp only [setTask, List.map_cons, List.map_nil, List.mem_singleton] at h
      right; exact h
  | cons p rest ih =>
      obtain ⟨k2, v2⟩ := p
      simp only [setTask] at h
      by_cases hk : k2 = k
      · rw [if_pos hk] at h
        simp only [List.map_cons, List.mem_cons] at h
        rcases h with h | h
        · right; exact h
        · left; simp only [List.map_cons, List.mem_cons]; right; exact h
      · rw [if_neg hk] at h
        simp only [List.map_cons, List.mem_cons] at h
        rcases h with h | h
        · left; simp only [List.map_cons, List.mem_cons]; left; exact h
        · rcases ih h with h2 | h2
          · left; simp only [List.map_cons, List.mem_cons]; right; exact h2
          · right; exact h2

/-- Values present after a dict deletion were present before. -/
theorem delTask_snd_mem (m : List (String × Nat)) (k : String) (v : Nat)
    (h : v ∈ (delTask m k).map Prod.snd) : v ∈ m.map Prod.snd := by
  obtain ⟨p, hp, hpv⟩ := List.mem_map.mp h
  exact List.mem_map.mpr ⟨p, List.mem_of_mem_filter hp, hpv⟩

/-- Handle index 0 is orphaned in state s when some handle sits at index 0
but no task in the map refers to it. -/
def orphan0 (s : DM) : Prop :=
  s.handles ≠ [] ∧ 0 ∉ s.tasks.map Prod.snd

/-- No download event can touch an orphaned handle at index 0: every
successful step preserves the handle unchanged, hence in particular its
close count. -/
theorem step_preserves_orphan0 (s s2 : DM) (e : DlEvent)
    (hs : s.step e = .ok s2) (ho : orphan0 s) :
    orphan0 s2 ∧ s2.handles[0]? = s.handles[0]? := by
  obtain ⟨hne, hnotin⟩ := ho
  have hlen : 0 < s.handles.length := List.length_pos.mpr hne
  cases e with
  | start key size =>
      simp only [DM.step, Except.ok.injEq] at hs
      subst hs
      refine ⟨⟨by simp [hne], ?_⟩, ?_⟩
      · intro hmem
        rcases setTask_snd_mem _ _ _ _ hmem with h | h
        · exact hnotin h
        · omega
      · simp only
        rw [List.getElem?_append, if_pos hlen]
  | data key payload =>
      cases hlk : lookupTask s.tasks key with
      | none => simp [DM.step, hlk] at hs
      | some i =>
          have hi0 : i ≠ 0 := fun h => hnotin (h ▸ lookupTask_mem_snd _ _ _ hlk)
          cases hgi : s.handles[i]? with
          | none => simp [DM.step, hlk, hgi] at hs
          | some h =>
              simp only [DM.step, hlk, hgi, Except.ok.injEq] at hs
              subst hs
              exact ⟨⟨by simp [List.ne_nil_of_length_pos, hlen], hnotin⟩,
                List.getElem?_set_ne hi0⟩
  | fin key =>
      cases hlk : lookupTask s.tasks key with
      | none => simp [DM.step, DM.closeKey, hlk] at hs
      | some i =>
          have hi0 : i ≠ 0 := fun h => hnotin (h ▸ lookupTask_mem_snd _ _ _ hlk)
          cases hgi : s.handles[i]? with
          | none => simp [DM.step, DM.closeKey, hlk, hgi] at hs
          | some h =>
              simp only [DM.step, DM.closeKey, hlk, hgi, Except.ok.injEq] at hs
              subst hs
              refine ⟨⟨by simp [List.ne_nil_of_length_pos, hlen],
                fun hmem => hnotin (delTask_snd_mem _ _ _ hmem)⟩,
                List.getElem?_set_ne hi0⟩
  | err key =>
      cases hlk : lookupTask s.tasks key with
      | none => simp [DM.step, DM.closeKey, hlk] at hs
      | some i =>
          have hi0 : i ≠ 0 := fun h => hnotin (h ▸ lookupTask_mem_snd _ _ _ hlk)
          cases hgi : s.handles[i]? with
          | none => simp [DM.step, DM.closeKey, hlk, hgi] at hs
          | some h =>
              simp only [DM.step, DM.closeKey, hlk, hgi, Except.ok.injEq] at hs
              subst hs
              refine ⟨⟨by simp [List.ne_nil_of_length_pos, hlen],
                fun hmem => hnotin (delTask_snd_mem _ _ _ hmem)⟩,
                List.getElem?_set_ne hi0⟩

/-- Whole runs preserve an orphaned handle 0 unchanged. -/
theorem run_preserves_orphan0 (evs : List DlEvent) (s s2 : DM)
    (hs : s.run evs = .ok s2) (ho : orphan0 s) :
    s2.handles[0]? = s.handles[0]? := by
  induction evs generalizing s with
  | nil => simp only [DM.run, Except.ok.injEq] at hs; subst hs; rfl
  | cons e rest ih =>
      simp only [DM.run] at hs
      cases hstep : s.step e with
      | error er => rw [hstep] at hs; simp at hs
      | ok smid =>
          rw [hstep] at hs
          obtain ⟨ho2, heq⟩ := step_preserves_orphan0 s smid e hstep ho
          rw [ih smid hs ho2, heq]

/-- Every handler keeps the output name fixed and only ever opens handles on
that single name: Task.__init__ always receives `self.ipa_name` as path. -/
theorem step_preserves_paths (s s2 : DM) (e : DlEvent) (hs : s.step e = .ok s2) :
    s2.ipaName = s.ipaName ∧
    ((∀ h ∈ s.handles, h.path = s.ipaName) → ∀ h ∈ s2.handles, h.path = s.ipaName) := by
  cases e with
  | start key size =>
      simp only [DM.step, Except.ok.injEq] at hs
      subst hs
      refine ⟨rfl, fun hall h hmem => ?_⟩
      rcases List.mem_append.mp hmem with hm | hm
      · exact hall h hm
      · simp only [List.mem_singleton] at hm
        subst hm; rfl
  | data key payload =>
      cases hlk : lookupTask s.tasks key with
      | none => simp [DM.step, hlk] at hs
      | some i =>
          cases hgi : s.handles[i]? with
          | none => simp [DM.step, hlk, hgi] at hs
          | some h0 =>
              simp only [DM.step, hlk, hgi, Except.ok.injEq] at hs
              subst hs
              refine ⟨rfl, fun hall h hmem => ?_⟩
              rcases List.mem_or_eq_of_mem_set hmem with hm | hm
              · exact hall h hm
              · subst hm
                obtain ⟨hl, rfl⟩ := List.getElem?_eq_some.mp hgi
                exact hall (s.handles.get ⟨i, hl⟩) (List.getElem_mem hl)
  | fin key =>
      cases hlk : lookupTask s.tasks key with
      | none => simp [DM.step, DM.closeKey, hlk] at hs
      | some i =>
          cases hgi : s.handles[i]? with
          | none => simp [DM.step, DM.closeKey, hlk, hgi] at hs
          | some h0 =>
              simp only [DM.step, DM.closeKey, hlk, hgi, Except.ok.injEq] at hs
              subst hs
              refine ⟨rfl, fun hall h hmem => ?_⟩
              rcases List.mem_or_eq_of_mem_set hmem with hm | hm
              · exact hall h hm
              · subst hm
                obtain ⟨hl, rfl⟩ := List.getElem?_eq_some.mp hgi
                exact hall (s.handles.get ⟨i, hl⟩) (List.getElem_mem hl)
  | err key =>
      cases hlk : lookupTask s.tasks key with
      | none => simp [DM.step, DM.closeKey, hlk] at hs
      | some i =>
          cases hgi : s.handles[i]? with
          | none => simp [DM.step, DM.closeKey, hlk, hgi] at hs
          | some h0 =>
              simp only [DM.step, DM.closeKey, hlk, hgi, Except.ok.injEq] at hs
              subst hs
              refine ⟨rfl, fun hall h hmem => ?_⟩
              rcases List.mem_or_eq_of_mem_set hmem with hm | hm
              · exact hall h hm
              · subst hm
                obtain ⟨hl, rfl⟩ := List.getElem?_eq_some.mp hgi
                exact hall (s.handles.get ⟨i, hl⟩) (List.getElem_mem hl)

/-- Whole runs keep every handle ever opened on the single output name. -/
theorem run_preserves_paths (evs : List DlEvent) (s s2 : DM)
    (hs : s.run evs = .ok s2)
    (hall : ∀ h ∈ s.handles, h.path = s.ipaName) :
    s2.ipaName = s.ipaName ∧ ∀ h ∈ s2.handles, h.path = s.ipaName := by
  induction evs generalizing s with
  | nil =>
      simp only [DM.run, Except.ok.injEq] at hs
      subst hs; exact ⟨rfl, hall⟩
  | cons e rest ih =>
      simp only [DM.run] at hs
      cases hstep : s.step e with
      | error er => rw [hstep] at hs; simp at hs
      | ok smid =>
          rw [hstep] at hs
          obtain ⟨hname, hmid⟩ := step_preserves_paths s smid e hstep
          obtain ⟨hname2, hall2⟩ := ih smid hs (by rw [hname]; exact hmid hall)
          exact ⟨hname2.trans hname, fun h hm => (hall2 h hm).trans hname⟩

/-- C10: a second start event on a key with an active task replaces the map
entry by a fresh task (index 1) reopening the same single destination path
with an empty buffer (truncation), while the previous handle (index 0) keeps
close count 0: it is not closed by the replacement, and no continuation of
the run ever writes to or closes it again, so it is never closed at all;
moreover every handle opened during the run carries the one destination path
ipa_name. -/
theorem C10_second_start_orphans_previous_handle (name key : String)
    (sz1 sz2 : Nat) (evs : List DlEvent) (s2 : DM)
    (hrun : (DM.mk0 name).run
        (DlEvent.start key sz1 :: DlEvent.start key sz2 :: evs) = .ok s2) :
    ((DM.mk0 name).run [DlEvent.start key sz1, DlEvent.start key sz2]
        = .ok ⟨name, [(key, 1)], [⟨name, sz1, [], 0⟩, ⟨name, sz2, [], 0⟩]⟩) ∧
    s2.handles[0]? = some ⟨name, sz1, [], 0⟩ ∧
    (∀ h ∈ s2.handles, h.path = name) := by
  have hmid : (DM.mk0 name).run
      (DlEvent.start key sz1 :: DlEvent.start key sz2 :: evs)
      = DM.run ⟨name, [(key, 1)], [⟨name, sz1, [], 0⟩, ⟨name, sz2, [], 0⟩]⟩ evs := by
    simp [DM.run, DM.step, DM.mk0, setTask, List.set]
  rw [hmid] at hrun
  refine ⟨by simp [DM.run, DM.step, DM.mk0, setTask, List.set], ?_, ?_⟩
  · have := run_preserves_orphan0 evs _ s2 hrun
      ⟨by simp, by simp⟩
    rw [this]; rfl
  · have := run_preserves_paths evs _ s2 hrun (by
      intro h hmem
      simp only [List.mem_cons, List.mem_singleton, List.not_mem_nil] at hmem
      rcases hmem with rfl | rfl | hf
      · rfl
      · rfl
      · cases hf)
    exact this.2

theorem C10_second_start_orphans_previous_handle_witness :
    ((DM.mk0 "a.ipa").run
        [DlEvent.start "k" 1, DlEvent.start "k" 2, DlEvent.fin "k"]
      = .ok ⟨"a.ipa", [], [⟨"a.ipa", 1, [], 0⟩, ⟨"a.ipa", 2, [], 1⟩]⟩) ∧
    (((DM.mk0 "a.ipa").run [DlEvent.start "k" 1, DlEvent.start "k" 2]
        = .ok ⟨"a.ipa", [("k", 1)], [⟨"a.ipa", 1, [], 0⟩, ⟨"a.ipa", 2, [], 0⟩]⟩) ∧
      (⟨"a.ipa", [], [⟨"a.ipa", 1, [], 0⟩, ⟨"a.ipa", 2, [], 1⟩]⟩ : DM).handles[0]?
        = some ⟨"a.ipa", 1, [], 0⟩ ∧
      (∀ h ∈ (⟨"a.ipa", [], [⟨"a.ipa", 1, [], 0⟩, ⟨"a.ipa", 2, [], 1⟩]⟩ : DM).handles,
        h.path = "a.ipa")) :=
  ⟨rfl, C10_second_start_orphans_previous_handle "a.ipa" "k" 1 2
    [DlEvent.fin "k"] _ rfl⟩

/-! ## Message router: IPADump.on_message (dump.py lines 101-123)

A message carries a type and a payload with subject and event fields; absent
fields are modelled as none (dict .get returns None).  The dict
`method_mapping` maps the four download event names to bound handlers and
raises KeyError on any other event value (`method_mapping[payload.get(...)]`
with no default).  Subject "finish" prints, calls `self.session.detach()`
and then `sys.exit(0)`; `self.session` is set to None by `IPADump.__init__`
(line 75) and is never assigned again anywhere in the file (`dump` keeps its
session in a local variable), so the detach call is an attribute access on
None. -/

structure Payload where
  subject : Option String
  event : Option String
deriving DecidableEq, Repr

structure Msg where
  type : Option String
  payload : Payload
deriving DecidableEq, Repr

/-- The four bound methods stored in `method_mapping`. -/
inductive Handler where
  | onDownloadStart
  | onDownloadData
  | onDownloadFinish
  | onDownloadError
deriving DecidableEq, Repr

/-- Lookup `method_mapping[payload.get("event")]` (dump.py lines 109-115):
a plain dict subscript, so any key outside the four entries raises
KeyError. -/
def methodMapping (ev : Option String) : Except PyError Handler :=
  match ev with
  | none => .error .keyError
  | some s =>
      if s = "start" then .ok .onDownloadStart
      else if s = "data" then .ok .onDownloadData
      else if s = "end" then .ok .onDownloadFinish
      else if s = "error" then .ok .onDownloadError
      else .error .keyError

/-- Observable outcome of one on_message invocation. -/
inductive Outcome where
  | ignored
  | handled (h : Handler)
  | exited (code : Int)
  | raised (e : PyError)
deriving DecidableEq, Repr

/-- on_message (dump.py lines 101-123): non-"send" types are printed and
ignored; subject "download" dispatches through method_mapping; subject
"finish" detaches `self.session` (raising AttributeError when that field is
None) and then exits with status 0; all other subjects are printed and
ignored. -/
def onMessage (sessionField : Option Unit) (m : Msg) : Outcome :=
  if m.type ≠ some "send" then .ignored
  else if m.payload.subject = some "download" then
    match methodMapping m.payload.event with
    | .ok h => .handled h
    | .error e => .raised e
  else if m.payload.subject = some "finish" then
    match sessionField with
    | none => .raised .attributeError
    | some _ => .exited 0
  else .ignored

/-- Value of `self.session` at every point where on_message can run:
`IPADump.__init__` (dump.py line 75) sets it to None and no other assignment
to the field exists in the file. -/
def sessionFieldDuringRun : Option Unit := none

/-- The closed table of download event names. -/
def downloadEvents : List (Option String) :=
  [some "start", some "data", some "end", some "error"]

/-- C5: a type-"send" message with subject "download" dispatches on the
event field over the closed table start/data/end/error: inside the table
some handler is selected, and for any event value outside the table the
dispatch raises KeyError — never a silent no-op default. -/
theorem C5_download_dispatch_closed (sf : Option Unit) (ev : Option String) :
    (ev ∈ downloadEvents →
      ∃ h, onMessage sf ⟨some "send", ⟨some "download", ev⟩⟩ = .handled h) ∧
    (ev ∉ downloadEvents →
      onMessage sf ⟨some "send", ⟨some "download", ev⟩⟩ = .raised .keyError) := by
  constructor
  · intro hmem
    simp only [downloadEvents, List.mem_cons, List.not_mem_nil, or_false] at hmem
    rcases hmem with rfl | rfl | rfl | rfl
    exacts [⟨_, rfl⟩, ⟨_, rfl⟩, ⟨_, rfl⟩, ⟨_, rfl⟩]
  · intro hnot
    rcases ev with _ | s
    · rfl
    · simp only [downloadEvents, List.mem_cons, List.not_mem_nil, or_false,
        Option.some.injEq, not_or] at hnot
      obtain ⟨h1, h2, h3, h4⟩ := hnot
      simp [onMessage, methodMapping, h1, h2, h3, h4]

theorem C5_download_dispatch_closed_witness :
    (((some "progress" : Option String) ∉ downloadEvents) ∧
      onMessage none ⟨some "send", ⟨some "download", some "progress"⟩⟩
        = .raised .keyError) ∧
    (((some "data" : Option String) ∈ downloadEvents) ∧
      ∃ h, onMessage none ⟨some "send", ⟨some "download", some "data"⟩⟩
        = .handled h) :=
  ⟨⟨by decide, (C5_download_dispatch_closed none (some "progress")).2 (by decide)⟩,
   ⟨by decide, (C5_download_dispatch_closed none (some "data")).1 (by decide)⟩⟩

/-- C8: on the first "finish" message the code prints the closing notice and
then evaluates `self.session.detach()`; since `self.session` is still None
in every run (it is only ever assigned in __init__), the attribute access
raises AttributeError and the subsequent `sys.exit(0)` is never reached: the
process does not terminate with status 0 there.  Had the session field been
assigned, the handler would exit with status 0. -/
theorem C8_finish_detach_raises_on_none :
    sessionFieldDuringRun = none ∧
    onMessage sessionFieldDuringRun ⟨some "send", ⟨some "finish", none⟩⟩
      = .raised .attributeError ∧
    Outcome.raised .attributeError ≠ .exited 0 ∧
    onMessage (some ()) ⟨some "send", ⟨some "finish", none⟩⟩ = .exited 0 :=
  ⟨rfl, rfl, by decide, rfl⟩

/-! ## Session establishment and plugin orchestration
(IPADump.dump, dump.py lines 125-161, and IPADump.dump_with_plugins,
lines 163-210)

The device and the agent exports are external collaborators; an Env record
fixes their answers for one run, and the controller logic is embedded as a
function from Env to the ordered list of side-effecting calls it performs
(the trace) together with its outcome.  The iteration order of the Python
set `spawned` (line 177, iterated at line 205) is arbitrary, so it is an
extra parameter: any permutation of the launched plugin list. -/

/-- Owner of a session/script in the run. -/
inductive Who where
  | host
  | pkd
  | plugin (id : String)
deriving DecidableEq, Repr

/-- One observable side effect: a device operation or an agent export call,
recorded in execution order. -/
inductive Call where
  | kill (pid : Nat)
  | spawnApp (identifier : String)
  | spawnDaemon
  | resume (pid : Nat)
  | attachPid (pid : Nat)
  | attachName (name : String)
  | createAndLoad (who : Who)
  | exPlugins
  | exSkipValidation (pid : Nat)
  | exLaunch (identifier : String)
  | exGroups (identifier : String)
  | exRoot
  | exData
  | exPathForGroup (group : String)
  | exDecrypt (who : Who) (root container : String)
  | exArchive (root container : String) (manifest : List String)
      (dest : Option String)
  | detach (who : Who)
deriving DecidableEq, Repr

/-- Answers of the external device and agent for one run.  appPid is 0 when
the app is not running (`self.app.pid` falsy); groupsOf lists the group set
each plugin's groups() export returns (a Python set: order and multiplicity
immaterial); launchPid, pathForGroup, hostManifest and pluginManifest fix
the other export results. -/
structure Env where
  appId : String
  appPid : Nat
  frontPid : Option Nat
  spawnedPid : Nat
  pkdRunning : Bool
  daemonPid : Nat
  plugins : List String
  launchPid : String → Nat
  groupsOf : String → List String
  rootPath : String
  dataPath : String
  pathForGroup : String → String
  hostManifest : List String
  pluginManifest : String → List String

/-- The displacement test of dump.py line 135: `pid and front and
front.pid != pid`. -/
def displaced (env : Env) : Bool :=
  decide (env.appPid ≠ 0) &&
    (match env.frontPid with
     | some f => decide (f ≠ env.appPid)
     | none => false)

/-- Final value of the `spawn` flag (dump.py lines 133-137): the app is not
running, or it was running displaced and has just been killed. -/
def doSpawn (env : Env) : Bool :=
  decide (env.appPid = 0) || displaced env

/-- dump.py lines 132-149: resolve the pid, kill a displaced running app,
then either spawn + attach + resume or attach the existing pid, and load the
agent script on the session. -/
def establishCalls (env : Env) : List Call :=
  (if displaced env then [Call.kill env.appPid] else []) ++
  (if doSpawn env then
      [Call.spawnApp env.appId, Call.attachPid env.spawnedPid,
       Call.resume env.spawnedPid]
    else [Call.attachPid env.appPid]) ++
  [Call.createAndLoad .host]

/-- dump.py lines 165-174: attach to pkd, spawning the daemon via launchctl
and retrying the attach once if it was not running; then load the agent
there and call the validation-bypass export with `self.app.pid` (the pid
recorded at enumeration time). -/
def pkdPhase (env : Env) : List Call :=
  (if env.pkdRunning then [Call.attachName "pkd"]
   else [Call.attachName "pkd", Call.spawnDaemon, Call.resume env.daemonPid,
         Call.attachName "pkd"]) ++
  [Call.createAndLoad .pkd, Call.exSkipValidation env.appPid]

/-- dump.py lines 179-188, one loop iteration: launch the plugin through the
host agent, attach its pid, load the agent, and read its group set. -/
def launchCalls (env : Env) (id : String) : List Call :=
  [Call.exLaunch id, Call.attachPid (env.launchPid id),
   Call.createAndLoad (.plugin id), Call.exGroups id]

/-- The launch loop runs over plugins() in order. -/
def launchPhase (env : Env) : List Call :=
  env.plugins.flatMap (launchCalls env)

/-- `all_groups` after the launch loop: one group set per plugin, in launch
order (dump.py line 188). -/
def allGroups (env : Env) : List (List String) :=
  env.plugins.map env.groupsOf

/-- `set.intersection(*all_groups)` (dump.py line 191): the members of the
first set that lie in every other set.  The empty argument list cannot occur
(the loop ran over a non-empty plugin list). -/
def intersectAll : List (List String) → List String
  | [] => []
  | g :: rest => g.filter (fun x => rest.all (fun s => s.contains x))

/-- Text of the explicit RuntimeError raised at dump.py lines 193-194. -/
def reportMsg : String :=
  "App includes extension, but no valid app group found. Please file a bug to Github"

/-- dump.py lines 191-194: `group = set.intersection(*all_groups).pop()`
followed by `if not group: raise RuntimeError(...)`.  pop() on an empty set
raises KeyError, so the RuntimeError check is reached only when a group was
popped, and fires only when that group is falsy (the empty string).  The
arbitrary element pop() returns is modelled as the head of the intersection
list. -/
def resolveGroup (gs : List (List String)) : Except PyError String :=
  match intersectAll gs with
  | [] => .error .keyError
  | g :: _ => if g = "" then .error (.runtimeError reportMsg) else .ok g

/-- dump.py lines 205-208, one iteration of the loop over the `spawned` set:
decrypt on the plugin session (its manifest is appended to `decrypted`),
then detach the session and kill the plugin process. -/
def teardownCalls (env : Env) (root container : String) (id : String) :
    List Call :=
  [Call.exDecrypt (.plugin id) root container, Call.detach (.plugin id),
   Call.kill (env.launchPid id)]

/-- The loop of dump.py lines 205-208 in iteration order `l`, threading the
accumulated manifest and the trace. -/
def pluginDecryptPhase (env : Env) (root container : String) :
    List String → List String × List Call → List String × List Call
  | [], acc => acc
  | id :: rest, (dec, tr) =>
      pluginDecryptPhase env root container rest
        (dec ++ env.pluginManifest id, tr ++ teardownCalls env root container id)

/-- IPADump.dump_with_plugins (dump.py lines 163-210), with the iteration
order of the `spawned` set passed as `order`: pkd handling, the launch loop,
pkd detach, group resolution (aborting on its error), root and container
resolution, host decrypt, the plugin decrypt/teardown loop, and one final
archive call whose options carry the container as dest. -/
def dumpWithPlugins (env : Env) (order : List String) :
    List Call × Except PyError Unit :=
  let pre := pkdPhase env ++ launchPhase env ++ [Call.detach .pkd]
  match resolveGroup (allGroups env) with
  | .error e => (pre, .error e)
  | .ok group =>
      let container := env.pathForGroup group
      let afterHost := pre ++ [Call.exRoot, Call.exPathForGroup group,
        Call.exDecrypt .host env.rootPath container]
      let res := pluginDecryptPhase env env.rootPath container order
        (env.hostManifest, afterHost)
      (res.2 ++ [Call.exArchive env.rootPath container res.1 (some container)],
       .ok ())

/-- dump.py lines 156-159, the no-plugin branch: root(), data() + "/tmp",
one decrypt, one archive; the options dict has no dest entry. -/
def noPluginCalls (env : Env) : List Call :=
  [Call.exRoot, Call.exData,
   Call.exDecrypt .host env.rootPath (env.dataPath ++ "/tmp"),
   Call.exArchive env.rootPath (env.dataPath ++ "/tmp") env.hostManifest none]

/-- IPADump.dump (dump.py lines 125-161): establish the primary session,
ask for plugins(), run the plugin or the no-plugin branch, and detach the
primary session on success (an exception propagates before the final
detach). -/
def dump (env : Env) (order : List String) :
    List Call × Except PyError Unit :=
  let pre := establishCalls env ++ [Call.exPlugins]
  if env.plugins.isEmpty then
    (pre ++ noPluginCalls env ++ [Call.detach .host], .ok ())
  else
    match dumpWithPlugins env order with
    | (tr, .ok _) => (pre ++ tr ++ [Call.detach .host], .ok ())
    | (tr, .error e) => (pre ++ tr, .error e)

/-- Trace classifiers used by the claims. -/
def isDecrypt : Call → Bool
  | .exDecrypt _ _ _ => true
  | _ => false

def isArchive : Call → Bool
  | .exArchive _ _ _ _ => true
  | _ => false

def isLaunchCall : Call → Bool
  | .exLaunch _ => true
  | _ => false

def isGroupsCall : Call → Bool
  | .exGroups _ => true
  | _ => false

def isPathForGroupCall : Call → Bool
  | .exPathForGroup _ => true
  | _ => false

def isKill : Call → Bool
  | .kill _ => true
  | _ => false

/-- Creation of any session other than the primary one: an attach by name
(the pkd daemon) or a script load for a non-host owner.  Every session in
dump.py loads exactly one script, so counting script loads counts
sessions. -/
def isNonHostSession : Call → Bool
  | .attachName _ => true
  | .createAndLoad .pkd => true
  | .createAndLoad (.plugin _) => true
  | _ => false

/-- Decrypt callers in trace order. -/
def decryptWhos : List Call → List Who
  | [] => []
  | .exDecrypt w _ _ :: rest => w :: decryptWhos rest
  | _ :: rest => decryptWhos rest

/-- Manifests passed to archive calls, in trace order. -/
def archivedManifests : List Call → List (List String)
  | [] => []
  | .exArchive _ _ m _ :: rest => m :: archivedManifests rest
  | _ :: rest => archivedManifests rest

theorem decryptWhos_append (a b : List Call) :
    decryptWhos (a ++ b) = decryptWhos a ++ decryptWhos b := by
  induction a with
  | nil => rfl
  | cons c r ih => cases c <;> simp [decryptWhos, ih]

theorem archivedManifests_append (a b : List Call) :
    archivedManifests (a ++ b) = archivedManifests a ++ archivedManifests b := by
  induction a with
  | nil => rfl
  | cons c r ih => cases c <;> simp [archivedManifests, ih]

/-- Counting archive calls agrees with the length of the archived-manifest
projection. -/
theorem countP_isArchive_eq_length (t : List Call) :
    t.countP isArchive = (archivedManifests t).length := by
  induction t with
  | nil => rfl
  | cons c r ih => cases c <;> simp [archivedManifests, isArchive, List.countP_cons, ih]

/-- The establishment prefix contains no call other than kill, spawn,
attach, resume and the host script load. -/
theorem countP_establishCalls_aux (env : Env) (p : Call → Bool)
    (hk : ∀ x, p (Call.kill x) = false)
    (hs : ∀ s, p (Call.spawnApp s) = false)
    (ha : ∀ x, p (Call.attachPid x) = false)
    (hr : ∀ x, p (Call.resume x) = false)
    (hc : p (Call.createAndLoad .host) = false) :
    (establishCalls env).countP p = 0 := by
  unfold establishCalls
  cases hdd : displaced env <;> cases hds : doSpawn env <;>
    simp [List.countP_append, List.countP_cons, hk, hs, ha, hr, hc]

theorem establish_no_decrypt (env : Env) :
    (establishCalls env).countP isDecrypt = 0 :=
  countP_establishCalls_aux env isDecrypt (fun _ => rfl) (fun _ => rfl)
    (fun _ => rfl) (fun _ => rfl) rfl

theorem establish_no_archive (env : Env) :
    (establishCalls env).countP isArchive = 0 :=
  countP_establishCalls_aux env isArchive (fun _ => rfl) (fun _ => rfl)
    (fun _ => rfl) (fun _ => rfl) rfl

theorem establish_no_launch (env : Env) :
    (establishCalls env).countP isLaunchCall = 0 :=
  countP_establishCalls_aux env isLaunchCall (fun _ => rfl) (fun _ => rfl)
    (fun _ => rfl) (fun _ => rfl) rfl

theorem establish_no_groups (env : Env) :
    (establishCalls env).countP isGroupsCall = 0 :=
  countP_establishCalls_aux env isGroupsCall (fun _ => rfl) (fun _ => rfl)
    (fun _ => rfl) (fun _ => rfl) rfl

theorem establish_no_path_for_group (env : Env) :
    (establishCalls env).countP isPathForGroupCall = 0 :=
  countP_establishCalls_aux env isPathForGroupCall (fun _ => rfl) (fun _ => rfl)
    (fun _ => rfl) (fun _ => rfl) rfl

theorem establish_no_other_session (env : Env) :
    (establishCalls env).countP isNonHostSession = 0 :=
  countP_establishCalls_aux env isNonHostSession (fun _ => rfl) (fun _ => rfl)
    (fun _ => rfl) (fun _ => rfl) rfl

/-- C6: when plugins() returns the empty sequence, the dump succeeds with
exactly one decrypt call and exactly one archive call, creates no session
besides the primary one (no pkd attach, no non-host script load), and never
calls launch(), groups() or path_for_group(). -/
theorem C6_no_plugin_path (env : Env) (order : List String)
    (h : env.plugins = []) :
    (dump env order).2 = .ok () ∧
    (dump env order).1.countP isDecrypt = 1 ∧
    (dump env order).1.countP isArchive = 1 ∧
    (dump env order).1.countP isLaunchCall = 0 ∧
    (dump env order).1.countP isGroupsCall = 0 ∧
    (dump env order).1.countP isPathForGroupCall = 0 ∧
    (dump env order).1.countP isNonHostSession = 0 := by
  have htr : dump env order
      = (establishCalls env ++ [Call.exPlugins] ++ (noPluginCalls env
          ++ [Call.detach .host]), .ok ()) := by
    simp [dump, h, List.append_assoc]
  rw [htr]
  refine ⟨rfl, ?_, ?_, ?_, ?_, ?_, ?_⟩ <;>
    simp only [List.countP_append, List.countP_cons, List.countP_nil,
      noPluginCalls, establish_no_decrypt, establish_no_archive,
      establish_no_launch, establish_no_groups, establish_no_path_for_group,
      establish_no_other_session, isDecrypt, isArchive, isLaunchCall,
      isGroupsCall, isPathForGroupCall, isNonHostSession] <;> rfl

/-- A concrete run with no plugins, used to instantiate theorems. -/
def envNoPlugins : Env :=
  { appId := "com.example.app"
    appPid := 0
    frontPid := none
    spawnedPid := 77
    pkdRunning := true
    daemonPid := 5
    plugins := []
    launchPid := fun _ => 0
    groupsOf := fun _ => []
    rootPath := "/var/app/Payload"
    dataPath := "/var/mobile/Data"
    pathForGroup := fun _ => ""
    hostManifest := ["app-binary"]
    pluginManifest := fun _ => [] }

theorem C6_no_plugin_path_witness :
    envNoPlugins.plugins = [] ∧
    ((dump envNoPlugins []).2 = .ok () ∧
     (dump envNoPlugins []).1.countP isDecrypt = 1 ∧
     (dump envNoPlugins []).1.countP isArchive = 1 ∧
     (dump envNoPlugins []).1.countP isLaunchCall = 0 ∧
     (dump envNoPlugins []).1.countP isGroupsCall = 0 ∧
     (dump envNoPlugins []).1.countP isPathForGroupCall = 0 ∧
     (dump envNoPlugins []).1.countP isNonHostSession = 0) :=
  ⟨rfl, C6_no_plugin_path envNoPlugins [] rfl⟩

/-- C7: establishing the primary session.  If the app runs with pid p while
a different application is frontmost, the controller kills p and then
spawns, attaches and resumes in that order; if the app is not running it
spawns, attaches, resumes without killing; if it runs and is not displaced
it attaches to the existing pid without killing; and in every case the
establishment trace contains at most one kill. -/
theorem C7_session_establishment (env : Env) :
    (∀ f, env.appPid ≠ 0 → env.frontPid = some f → f ≠ env.appPid →
      establishCalls env = [Call.kill env.appPid, Call.spawnApp env.appId,
        Call.attachPid env.spawnedPid, Call.resume env.spawnedPid,
        Call.createAndLoad .host]) ∧
    (env.appPid = 0 →
      establishCalls env = [Call.spawnApp env.appId,
        Call.attachPid env.spawnedPid, Call.resume env.spawnedPid,
        Call.createAndLoad .host]) ∧
    (env.appPid ≠ 0 → (env.frontPid = none ∨ env.frontPid = some env.appPid) →
      establishCalls env = [Call.attachPid env.appPid,
        Call.createAndLoad .host]) ∧
    (establishCalls env).countP isKill ≤ 1 := by
  refine ⟨?_, ?_, ?_, ?_⟩
  · intro f h0 hf hne
    have hd : displaced env = true := by
      simp [displaced, hf, h0, hne]
    simp [establishCalls, doSpawn, hd]
  · intro h0
    have hd : displaced env = false := by
      simp [displaced, h0]
    simp [establishCalls, doSpawn, hd, h0]
  · intro h0 hf
    have hd : displaced env = false := by
      rcases hf with hf | hf <;> simp [displaced, hf, h0]
    have hs : doSpawn env = false := by
      simp [doSpawn, hd, h0]
    simp [establishCalls, hd, hs]
  · unfold establishCalls
    cases hdd : displaced env <;> cases hds : doSpawn env <;>
      simp [List.countP_append, List.countP_cons, isKill]

/-- A concrete displaced run: the app is running with pid 42 while pid 7 is
frontmost. -/
def envDisplaced : Env :=
  { envNoPlugins with appPid := 42, frontPid := some 7, spawnedPid := 99 }

theorem C7_session_establishment_witness :
    establishCalls envDisplaced = [Call.kill 42, Call.spawnApp "com.example.app",
      Call.attachPid 99, Call.resume 99, Call.createAndLoad .host] :=
  (C7_session_establishment envDisplaced).1 7 (by decide) rfl (by decide)

/-- The decrypt/teardown loop threads the manifest and the trace: it appends
each plugin's manifest and each plugin's decrypt/detach/kill block in
iteration order. -/
theorem pluginDecryptPhase_eq (env : Env) (root container : String)
    (l : List String) (d0 : List String) (t0 : List Call) :
    pluginDecryptPhase env root container l (d0, t0)
      = (d0 ++ l.flatMap env.pluginManifest,
         t0 ++ l.flatMap (teardownCalls env root container)) := by
  induction l generalizing d0 t0 with
  | nil => simp [pluginDecryptPhase]
  | cons id rest ih =>
      simp only [pluginDecryptPhase, ih, List.flatMap_cons, List.append_assoc]

/-- Shape of the plugin path when group resolution returns a group. -/
theorem dumpWithPlugins_ok (env : Env) (order : List String) (g : String)
    (hg : resolveGroup (allGroups env) = .ok g) :
    dumpWithPlugins env order
      = (pkdPhase env ++ (launchPhase env ++ ([Call.detach .pkd]
          ++ ([Call.exRoot, Call.exPathForGroup g,
              Call.exDecrypt .host env.rootPath (env.pathForGroup g)]
          ++ (order.flatMap (teardownCalls env env.rootPath (env.pathForGroup g))
          ++ [Call.exArchive env.rootPath (env.pathForGroup g)
                (env.hostManifest ++ order.flatMap env.pluginManifest)
                (some (env.pathForGroup g))])))),
         .ok ()) := by
  simp [dumpWithPlugins, hg, pluginDecryptPhase_eq, List.append_assoc]

/-- Shape of the plugin path when group resolution raises. -/
theorem dumpWithPlugins_error (env : Env) (order : List String) (e : PyError)
    (he : resolveGroup (allGroups env) = .error e) :
    dumpWithPlugins env order
      = (pkdPhase env ++ launchPhase env ++ [Call.detach .pkd], .error e) := by
  simp [dumpWithPlugins, he]

theorem decryptWhos_pkdPhase (env : Env) :
    decryptWhos (pkdPhase env) = [] := by
  cases h : env.pkdRunning <;> simp [pkdPhase, h, decryptWhos]

theorem decryptWhos_launchBlocks (env : Env) (l : List String) :
    decryptWhos (l.flatMap (launchCalls env)) = [] := by
  induction l with
  | nil => rfl
  | cons a r ih =>
      rw [List.flatMap_cons, decryptWhos_append, ih]
      simp [launchCalls, decryptWhos]

theorem decryptWhos_teardowns (env : Env) (root container : String)
    (l : List String) :
    decryptWhos (l.flatMap (teardownCalls env root container))
      = l.map Who.plugin := by
  induction l with
  | nil => rfl
  | cons a r ih =>
      rw [List.flatMap_cons, decryptWhos_append, ih]
      simp [teardownCalls, decryptWhos]

theorem archivedManifests_pkdPhase (env : Env) :
    archivedManifests (pkdPhase env) = [] := by
  cases h : env.pkdRunning <;> simp [pkdPhase, h, archivedManifests]

theorem archivedManifests_launchBlocks (env : Env) (l : List String) :
    archivedManifests (l.flatMap (launchCalls env)) = [] := by
  induction l with
  | nil => rfl
  | cons a r ih =>
      rw [List.flatMap_cons, archivedManifests_append, ih]
      simp [launchCalls, archivedManifests]

theorem archivedManifests_teardowns (env : Env) (root container : String)
    (l : List String) :
    archivedManifests (l.flatMap (teardownCalls env root container)) = [] := by
  induction l with
  | nil => rfl
  | cons a r ih =>
      rw [List.flatMap_cons, archivedManifests_append, ih]
      simp [teardownCalls, archivedManifests]

/-- Calls that concern one specific launched plugin after its launch: its
decrypt, its session detach, and the kill of its pid. -/
def aboutPlugin (env : Env) (id : String) : Call → Bool
  | .exDecrypt (.plugin j) _ _ => j == id
  | .detach (.plugin j) => j == id
  | .kill p => p == env.launchPid id
  | _ => false

theorem filter_aboutPlugin_pkdPhase (env : Env) (id : String) :
    (pkdPhase env).filter (aboutPlugin env id) = [] := by
  cases h : env.pkdRunning <;> simp [pkdPhase, h, aboutPlugin]

theorem filter_aboutPlugin_launchBlocks (env : Env) (id : String)
    (l : List String) :
    (l.flatMap (launchCalls env)).filter (aboutPlugin env id) = [] := by
  induction l with
  | nil => rfl
  | cons a r ih =>
      simp [List.flatMap_cons, List.filter_append, launchCalls, aboutPlugin, ih]

theorem filter_aboutPlugin_teardowns_nomem (env : Env)
    (root container id : String) (l : List String)
    (h : ∀ b ∈ l, b ≠ id ∧ env.launchPid b ≠ env.launchPid id) :
    (l.flatMap (teardownCalls env root container)).filter (aboutPlugin env id)
      = [] := by
  induction l with
  | nil => rfl
  | cons a r ih =>
      obtain ⟨hne, hpid⟩ := h a (List.mem_cons_self a r)
      have ihr := ih (fun b hb => h b (List.mem_cons_of_mem a hb))
      simp [List.flatMap_cons, List.filter_append, teardownCalls, aboutPlugin,
        hne, hpid, ihr]

/-- When the iteration order has no duplicate identifiers and launched pids
identify the plugin, the calls about one launched plugin are exactly its own
decrypt/detach/kill block, in that order. -/
theorem filter_aboutPlugin_teardowns (env : Env) (root container id : String)
    (l : List String) (hnd : l.Nodup) (hmem : id ∈ l)
    (hinj : ∀ b ∈ l, env.launchPid b = env.launchPid id → b = id) :
    (l.flatMap (teardownCalls env root container)).filter (aboutPlugin env id)
      = teardownCalls env root container id := by
  induction l with
  | nil => cases hmem
  | cons a r ih =>
      rw [List.nodup_cons] at hnd
      obtain ⟨hanr, hndr⟩ := hnd
      by_cases hai : a = id
      · subst hai
        have hr : ∀ b ∈ r, b ≠ a ∧ env.launchPid b ≠ env.launchPid a := by
          intro b hb
          refine ⟨fun hba => hanr (hba ▸ hb), fun hpid => ?_⟩
          have hba := hinj b (List.mem_cons_of_mem a hb) hpid
          exact hanr (hba ▸ hb)
        simp [List.flatMap_cons, List.filter_append, teardownCalls, aboutPlugin,
          filter_aboutPlugin_teardowns_nomem env root container a r hr]
      · have hmem2 : id ∈ r := by
          rcases List.mem_cons.mp hmem with h | h
          · exact absurd h.symm hai
          · exact h
        have hpida : env.launchPid a ≠ env.launchPid id := fun hp =>
          hai (hinj a (List.mem_cons_self a r) hp)
        have ihr := ih hndr hmem2 (fun b hb => hinj b (List.mem_cons_of_mem a hb))
        simp [List.flatMap_cons, List.filter_append, teardownCalls, aboutPlugin,
          hai, hpida, ihr]

/-- A run with two plugins whose declared group sets are disjoint. -/
def envDisjoint : Env :=
  { envNoPlugins with
      plugins := ["ext.x", "ext.y"]
      launchPid := fun id => if id = "ext.x" then 101 else 102
      groupsOf := fun id => if id = "ext.x" then ["group.a"] else ["group.b"] }

/-- C1, evaluated on the code: with disjoint plugin group sets the
intersection is empty, so `set.intersection(*all_groups).pop()` raises
KeyError — not the documented RuntimeError ("... Please file a bug ...") the
claim requires, which line 192 can only reach when the popped group is
falsy.  The run does abort before any decrypt or archive call and never
picks a default group; and a two-element intersection, which the claim says
must not resolve, resolves silently to an arbitrary element. -/
theorem C1_disjoint_groups_raise_keyerror :
    intersectAll (allGroups envDisjoint) = [] ∧
    resolveGroup (allGroups envDisjoint) = .error .keyError ∧
    PyError.keyError ≠ PyError.runtimeError reportMsg ∧
    (dumpWithPlugins envDisjoint ["ext.x", "ext.y"]).2 = .error .keyError ∧
    decryptWhos (dumpWithPlugins envDisjoint ["ext.x", "ext.y"]).1 = [] ∧
    archivedManifests (dumpWithPlugins envDisjoint ["ext.x", "ext.y"]).1 = [] ∧
    resolveGroup [["group.a", "group.b"], ["group.b", "group.a"]]
      = .ok "group.a" :=
  ⟨rfl, rfl, by decide, rfl, rfl, rfl, rfl⟩

/-- A run with two plugins sharing one group, with distinguishable
manifests. -/
def envTwoPlugins : Env :=
  { envNoPlugins with
      plugins := ["ext.x", "ext.y"]
      launchPid := fun id => if id = "ext.x" then 101 else 102
      groupsOf := fun _ => ["group.a"]
      pathForGroup := fun _ => "/shared/group.a"
      hostManifest := ["host-app"]
      pluginManifest := fun id =>
        if id = "ext.x" then ["manifest.x"] else ["manifest.y"] }

/-- C2 counterexample: the loop of dump.py line 205 iterates the Python set
`spawned`, whose iteration order is arbitrary; for the legitimate iteration
order [ext.y, ext.x] (a permutation of plugins() = [ext.x, ext.y]) the
plugin decrypts run host, ext.y, ext.x — not launch order — and the
manifest passed to archive concatenates in that same order, differing from
the launch-order concatenation the claim requires. -/
theorem C2_launch_order_counterexample :
    List.Perm ["ext.y", "ext.x"] envTwoPlugins.plugins ∧
    decryptWhos (dumpWithPlugins envTwoPlugins ["ext.y", "ext.x"]).1
      = [Who.host, Who.plugin "ext.y", Who.plugin "ext.x"] ∧
    Who.host :: envTwoPlugins.plugins.map Who.plugin
      = [Who.host, Who.plugin "ext.x", Who.plugin "ext.y"] ∧
    ([Who.host, Who.plugin "ext.y", Who.plugin "ext.x"]
      ≠ [Who.host, Who.plugin "ext.x", Who.plugin "ext.y"]) ∧
    archivedManifests (dumpWithPlugins envTwoPlugins ["ext.y", "ext.x"]).1
      = [["host-app", "manifest.y", "manifest.x"]] ∧
    envTwoPlugins.hostManifest
        ++ envTwoPlugins.plugins.flatMap envTwoPlugins.pluginManifest
      = ["host-app", "manifest.x", "manifest.y"] ∧
    (["host-app", "manifest.y", "manifest.x"]
      ≠ ["host-app", "manifest.x", "manifest.y"]) :=
  ⟨List.Perm.swap "ext.x" "ext.y" [], rfl, rfl, by decide, rfl, rfl, by decide⟩

/-- C2 (amended): on the plugin path, for every iteration order of the
spawned set (any permutation of the launched plugins, with distinct
identifiers and distinct pids), decrypt runs first on the host session and
then once per plugin session in that iteration order — not necessarily
launch order; archive is called exactly once, with the manifests
concatenated host-first in the same iteration order; and the calls
concerning each plugin after its launch are exactly its decrypt, then its
session detach, then the kill of its pid, so every plugin is detached and
killed only after its manifest has been folded in. -/
theorem C2_plugin_decrypt_iteration_order (env : Env) (order : List String)
    (hperm : order.Perm env.plugins) (hnd : order.Nodup)
    (hinj : ∀ a ∈ order, ∀ b ∈ order, env.launchPid a = env.launchPid b → a = b)
    (g : String) (hg : resolveGroup (allGroups env) = .ok g) :
    (dumpWithPlugins env order).2 = .ok () ∧
    decryptWhos (dumpWithPlugins env order).1
      = Who.host :: order.map Who.plugin ∧
    archivedManifests (dumpWithPlugins env order).1
      = [env.hostManifest ++ order.flatMap env.pluginManifest] ∧
    (dumpWithPlugins env order).1.countP isArchive = 1 ∧
    ∀ id ∈ order, (dumpWithPlugins env order).1.filter (aboutPlugin env id)
      = [Call.exDecrypt (.plugin id) env.rootPath (env.pathForGroup g),
         Call.detach (.plugin id), Call.kill (env.launchPid id)] := by
  rw [dumpWithPlugins_ok env order g hg]
  refine ⟨rfl, ?_, ?_, ?_, ?_⟩
  · simp only [decryptWhos_append, decryptWhos_pkdPhase, launchPhase,
      decryptWhos_launchBlocks, decryptWhos_teardowns, decryptWhos,
      List.append_eq, List.nil_append, List.append_nil]
  · simp only [archivedManifests_append, archivedManifests_pkdPhase,
      launchPhase, archivedManifests_launchBlocks, archivedManifests_teardowns,
      archivedManifests, List.append_eq, List.nil_append, List.append_nil]
  · rw [countP_isArchive_eq_length]
    simp only [archivedManifests_append, archivedManifests_pkdPhase,
      launchPhase, archivedManifests_launchBlocks, archivedManifests_teardowns,
      archivedManifests, List.append_eq, List.nil_append, List.append_nil,
      List.length_cons, List.length_nil]
  · intro id hid
    have hinj2 : ∀ b ∈ order, env.launchPid b = env.launchPid id → b = id :=
      fun b hb hpb => hinj b hb id hid hpb
    simp only [List.filter_append, filter_aboutPlugin_pkdPhase, launchPhase,
      filter_aboutPlugin_launchBlocks,
      filter_aboutPlugin_teardowns env env.rootPath (env.pathForGroup g) id
        order hnd hid hinj2, teardownCalls, List.nil_append]
    simp [aboutPlugin]

theorem C2_plugin_decrypt_iteration_order_witness :
    ((dumpWithPlugins envTwoPlugins ["ext.y", "ext.x"]).2 = .ok () ∧
     decryptWhos (dumpWithPlugins envTwoPlugins ["ext.y", "ext.x"]).1
       = Who.host :: (["ext.y", "ext.x"] : List String).map Who.plugin ∧
     archivedManifests (dumpWithPlugins envTwoPlugins ["ext.y", "ext.x"]).1
       = [envTwoPlugins.hostManifest
           ++ (["ext.y", "ext.x"] : List String).flatMap
                envTwoPlugins.pluginManifest] ∧
     (dumpWithPlugins envTwoPlugins ["ext.y", "ext.x"]).1.countP isArchive
       = 1 ∧
     ∀ id ∈ (["ext.y", "ext.x"] : List String),
       (dumpWithPlugins envTwoPlugins ["ext.y", "ext.x"]).1.filter
           (aboutPlugin envTwoPlugins id)
         = [Call.exDecrypt (.plugin id) envTwoPlugins.rootPath
              (envTwoPlugins.pathForGroup "group.a"),
            Call.detach (.plugin id),
            Call.kill (envTwoPlugins.launchPid id)]) :=
  C2_plugin_decrypt_iteration_order envTwoPlugins ["ext.y", "ext.x"]
    (List.Perm.swap "ext.x" "ext.y" []) (by decide)
    (by
      intro a ha b hb
      fin_cases ha <;> fin_cases hb <;> simp [envTwoPlugins, envNoPlugins])
    "group.a" rfl

end FridaIpaDump
